import Mathlib

/-!
Verification of the espiox memory subsystem and sync/async bridge.

Shallow embedding of `src/agent/mod.rs` and `src/context/memory.rs`.
Rust panics (`expect`, `panic!`, `assert!`) are modelled as `Except.error`
values carrying a structured `PanicMsg`; a panic inside a spawned worker
thread reaches the caller exactly when the caller `join()`s that thread.
The persistence handlers (`handlers::threads`, `handlers::messages`) live in
the database module, which is external to the files embedded here; they are
modelled as an abstract `Handlers` interface together with a state-based
instance following the specification of the durable store.
-/

namespace Espiox

/-- A chat message as pushed onto the conversation buffer by
`push_std(role, content)`. -/
structure Message where
  role : String
  content : String
  deriving Repr, DecidableEq

/-- A `serde_json::Value` holding one message record as handled by the memory
backends; `get("role")` / `get("content")` may be absent, hence `Option`. -/
structure MsgValue where
  role? : Option String
  content? : Option String
  deriving Repr, DecidableEq

/-- Errors returned by the persistence handlers: `rowNotFound` models
`sqlx::Error::RowNotFound`; `other` models any different backend failure. -/
inductive DbError
  | rowNotFound
  | other (msg : String)
  deriving Repr, DecidableEq

/-- Panics raised by the embedded code (`expect`, `panic!`, `assert!`),
surfaced as error values to whoever joins the panicking thread. -/
inductive PanicMsg
  | errorGettingThread (e : DbError)
  | assertPostThread
  | failedToGetMessages
  | noRole
  | noContent
  | failedToStoreMessages
  | failedToGetCompletion
  | failedToParseResponse
  deriving Repr, DecidableEq

/-- A persisted message row of the durable store. -/
structure StoredMsg where
  threadName : String
  role : String
  content : String
  deriving Repr, DecidableEq

/-- `coerce_to_value`: convert a persisted message row to a message value. -/
def StoredMsg.coerceToValue (m : StoredMsg) : MsgValue :=
  ⟨some m.role, some m.content⟩

/-- `CreateMessageBody` as passed to `post_message`. -/
structure CreateMessageBody where
  threadName : String
  role : String
  content : String
  deriving Repr, DecidableEq

/-- One call issued to the persistence layer, recorded in issue order. -/
inductive DbEvent
  | getThreadEv (name : String)
  | postThreadEv (name : String)
  | getMessagesEv (name : String)
  | postMessageEv (body : CreateMessageBody)
  deriving Repr, DecidableEq

/-- The persistence-layer interface consumed by the memory code, modelled as
explicit state passing over an abstract backend state `σ`.  Failures are
opaque error values. -/
structure Handlers (σ : Type) where
  getThread : σ → String → Except DbError Unit × σ
  postThread : σ → String → Except DbError Unit × σ
  getMessages : σ → String → Except DbError (List StoredMsg) × σ
  postMessage : σ → CreateMessageBody → Except DbError Unit × σ

/-- Modelled from the spec: the durable store is a collection of named
threads, each holding an ordered sequence of persisted messages (the database
module implementing this is not part of the embedded files). -/
structure DbState where
  threads : List (String × List StoredMsg)
  deriving Repr, DecidableEq

/-- Look a thread up by name in the durable store. -/
def findThread : List (String × List StoredMsg) → String → Option (List StoredMsg)
  | [], _ => none
  | (n, ms) :: rest, name => if n = name then some ms else findThread rest name

/-- Append a message row to the named thread, creating the thread on first
reference if absent. -/
def appendMsg : List (String × List StoredMsg) → String → StoredMsg →
    List (String × List StoredMsg)
  | [], name, m => [(name, [m])]
  | (n, ms) :: rest, name, m =>
    if n = name then (n, ms ++ [m]) :: rest else (n, ms) :: appendMsg rest name m

/-- Modelled from the spec: `get_thread(pool, name)` fetches the named thread
and fails with `RowNotFound` when it is absent. -/
def specGetThread (st : DbState) (name : String) : Except DbError Unit × DbState :=
  match findThread st.threads name with
  | some _ => (.ok (), st)
  | none => (.error .rowNotFound, st)

/-- Modelled from the spec: `create_thread(pool, name)` creates an empty named
thread. -/
def specPostThread (st : DbState) (name : String) : Except DbError Unit × DbState :=
  (.ok (), ⟨st.threads ++ [(name, [])]⟩)

/-- Modelled from the spec: `get_messages(pool, params)` returns all persisted
messages of the named thread, in order. -/
def specGetMessagesDb (st : DbState) (name : String) :
    Except DbError (List StoredMsg) × DbState :=
  match findThread st.threads name with
  | some ms => (.ok ms, st)
  | none => (.error .rowNotFound, st)

/-- Modelled from the spec: `post_message(pool, body)` appends one persisted
message to the named thread. -/
def specPostMessage (st : DbState) (body : CreateMessageBody) :
    Except DbError Unit × DbState :=
  (.ok (), ⟨appendMsg st.threads body.threadName ⟨body.threadName, body.role, body.content⟩⟩)

/-- The spec-modelled persistence layer over `DbState`. -/
def specHandlers : Handlers DbState :=
  ⟨specGetThread, specPostThread, specGetMessagesDb, specPostMessage⟩

/-- `LoadedMemory`: the two memory backends. -/
inductive LoadedMemory
  | LongTerm (threadname : String)
  | Cache
  deriving Repr, DecidableEq

/-- `Memory`: the agent memory mode. -/
inductive Memory
  | Remember (mem : LoadedMemory)
  | Forget
  deriving Repr, DecidableEq

/-- The in-process memory state: the thread-local `CACHED_MEMORY` vector and
the durable backend state reachable through the connection pool. -/
structure MemState (σ : Type) where
  cache : List MsgValue
  db : σ

/-- The body of `LoadedMemory::get_messages` for `LongTerm`, run to completion
on the spawned worker thread: ensure the thread exists (on `RowNotFound`
create it, asserting success; panic on any other fetch error), then fetch all
persisted messages of the thread and coerce each to a message value.  The
caller `join()`s the worker, so the worker's result — panic included — is
what the caller observes.  Also returns the backend state after the call and
the persistence calls issued, in order. -/
def longTermGetMessages {σ : Type} (H : Handlers σ) (db : σ) (tn : String) :
    Except PanicMsg (List MsgValue) × σ × List DbEvent :=
  match H.getThread db tn with
  | (.ok _, db1) =>
    match H.getMessages db1 tn with
    | (.ok ms, db2) =>
      (.ok (ms.map StoredMsg.coerceToValue), db2, [.getThreadEv tn, .getMessagesEv tn])
    | (.error _, db2) =>
      (.error .failedToGetMessages, db2, [.getThreadEv tn, .getMessagesEv tn])
  | (.error e, db1) =>
    if e = .rowNotFound then
      match H.postThread db1 tn with
      | (.ok _, db2) =>
        match H.getMessages db2 tn with
        | (.ok ms, db3) =>
          (.ok (ms.map StoredMsg.coerceToValue), db3,
            [.getThreadEv tn, .postThreadEv tn, .getMessagesEv tn])
        | (.error _, db3) =>
          (.error .failedToGetMessages, db3,
            [.getThreadEv tn, .postThreadEv tn, .getMessagesEv tn])
      | (.error _, db2) =>
        (.error .assertPostThread, db2, [.getThreadEv tn, .postThreadEv tn])
    else
      (.error (.errorGettingThread e), db1, [.getThreadEv tn])

/-- `LoadedMemory::get_messages`: `Cache` reads the thread-local vector
directly; `LongTerm` runs `longTermGetMessages` on a fresh worker thread and
joins it, so the worker outcome is surfaced to the caller. -/
def LoadedMemory.get_messages {σ : Type} (lm : LoadedMemory) (H : Handlers σ)
    (st : MemState σ) : Except PanicMsg (List MsgValue) × MemState σ × List DbEvent :=
  match lm with
  | .Cache => (.ok st.cache, st, [])
  | .LongTerm tn =>
    match longTermGetMessages H st.db tn with
    | (r, db2, evs) => (r, { st with db := db2 }, evs)

/-- Build the `CreateMessageBody` for one message; `expect("No role")` /
`expect("No content")` panic when the field is absent, role checked first. -/
def mkBody (tn : String) (m : MsgValue) : Except PanicMsg CreateMessageBody :=
  match m.role?, m.content? with
  | none, _ => .error .noRole
  | some _, none => .error .noContent
  | some r, some c => .ok ⟨tn, r, c⟩

/-- The loop of the `LongTerm` store worker: post one message at a time in
caller order, panicking on (and stopping at) the first failure. -/
def postAll {σ : Type} (H : Handlers σ) (tn : String) :
    σ → List MsgValue → Except PanicMsg Unit × σ × List DbEvent
  | db, [] => (.ok (), db, [])
  | db, m :: rest =>
    match mkBody tn m with
    | .error p => (.error p, db, [])
    | .ok body =>
      match H.postMessage db body with
      | (.ok _, db1) =>
        match postAll H tn db1 rest with
        | (r, db2, evs) => (r, db2, .postMessageEv body :: evs)
      | (.error _, db1) =>
        (.error .failedToStoreMessages, db1, [.postMessageEv body])

/-- Outcome of one `store_messages` call: what the caller observes, what the
spawned worker ended with, the final state and the writes issued. -/
structure StoreOutcome (σ : Type) where
  callerPanic : Option PanicMsg
  workerResult : Except PanicMsg Unit
  state : MemState σ
  events : List DbEvent

/-- `LoadedMemory::store_messages`: `Cache` appends to the thread-local vector
in call order; `LongTerm` spawns a worker thread that posts each message
sequentially.  The spawned thread is never `join()`ed (`thread::spawn(..);`
with the handle discarded), so the caller observes no outcome from it:
`callerPanic = none` in the `LongTerm` branch, while the worker's own fate is
reported separately in `workerResult`. -/
def LoadedMemory.store_messages {σ : Type} (lm : LoadedMemory) (H : Handlers σ)
    (st : MemState σ) (messages : List MsgValue) : StoreOutcome σ :=
  match lm with
  | .Cache => ⟨none, .ok (), { st with cache := st.cache ++ messages }, []⟩
  | .LongTerm tn =>
    match postAll H tn st.db messages with
    | (r, db1, evs) => ⟨none, r, { st with db := db1 }, evs⟩

/-- `Memory::load`: `Forget` returns the empty vector without touching any
backend; `Remember` delegates to `get_messages`. -/
def Memory.load {σ : Type} (mem : Memory) (H : Handlers σ) (st : MemState σ) :
    Except PanicMsg (List MsgValue) × MemState σ × List DbEvent :=
  match mem with
  | .Remember lm => lm.get_messages H st
  | .Forget => (.ok [], st, [])

/-- `Memory::save`: `Forget` is a no-op; `Remember` delegates to
`store_messages`. -/
def Memory.save {σ : Type} (mem : Memory) (H : Handlers σ) (st : MemState σ)
    (messages : List MsgValue) : StoreOutcome σ :=
  match mem with
  | .Remember lm => lm.store_messages H st messages
  | .Forget => ⟨none, .ok (), st, []⟩

/-- `push_std(role, content)`: append one message to the conversation buffer. -/
def pushStd (buffer : List Message) (role content : String) : List Message :=
  buffer ++ [⟨role, content⟩]

/-- `Agent::prompt`: push the input as a user message, run one completion call
for the current buffer snapshot on a fresh worker thread (joined by the
caller, so its panic is the caller's panic), parse the received response,
push the parsed result as an assistant message and return it.  `completion`
is the external model client and `parse` the external response parser, both
fallible with opaque errors.  The second component records the buffer
snapshot of every completion call issued during this invocation. -/
def Agent.prompt {ρ : Type} (completion : List Message → Except String ρ)
    (parse : ρ → Except String String) (buffer : List Message) (input : String) :
    Except PanicMsg (String × List Message) × List (List Message) :=
  let buf1 := pushStd buffer "user" input
  match completion buf1 with
  | .error _ => (.error .failedToGetCompletion, [buf1])
  | .ok resp =>
    match parse resp with
    | .error _ => (.error .failedToParseResponse, [buf1])
    | .ok result => (.ok (result, pushStd buf1 "assistant" result), [buf1])

/-- The buffer-initialisation step of `Agent::build`: `Forget` overwrites the
buffer with the settings' `init_prompt` unconditionally; every other memory
mode keeps the buffer `Context::build` loaded from the backend unless that
buffer is empty, in which case it is replaced by `init_prompt`. -/
def Agent.buildBuffer (memory : Memory) (loadedBuffer initPrompt : List Message) :
    List Message :=
  match memory with
  | .Forget => initPrompt
  | _ => if loadedBuffer.length = 0 then initPrompt else loadedBuffer

/-- Model of the Rust `thread_local!` storage holding `DATA_POOL`: a
per-process registry mapping each OS-thread id to the pool instance that
thread initialised on its first access; pool instances are numbered in
creation order, so distinct numbers are distinct instances. -/
structure PoolRegistry where
  entries : List (Nat × Nat)
  next : Nat
  deriving Repr, DecidableEq

/-- Look up the pool instance already initialised for a thread id, if any. -/
def lookupTid : List (Nat × Nat) → Nat → Option Nat
  | [], _ => none
  | (t, p) :: rest, tid => if t = tid then some p else lookupTid rest tid

/-- Access `DATA_POOL` from thread `tid`: reuse the pool this thread already
initialised, or run the thread-local initialiser
(`Arc::new(DbPool::init_long_term())`) and record the fresh instance. -/
def PoolRegistry.access (r : PoolRegistry) (tid : Nat) : Nat × PoolRegistry :=
  match lookupTid r.entries tid with
  | some pid => (pid, r)
  | none => (r.next, ⟨r.entries ++ [(tid, r.next)], r.next + 1⟩)

/-- One bridged durable call: `thread::spawn` starts worker thread `tid` and
the worker obtains its pool via `Self::DATA_POOL.with(|p| Arc::clone(p))`,
evaluated on that worker thread. -/
def bridgedCallPool (r : PoolRegistry) (tid : Nat) : Nat × PoolRegistry :=
  r.access tid

/-- State of the streaming pipeline: tokens the source stream has not yet
yielded, tokens buffered in the bounded channel, and tokens already received
through the consumer handle. -/
structure PipeState (τ : Type) where
  pending : List τ
  chan : List τ
  delivered : List τ
  deriving Repr, DecidableEq

/-- Modelled from the spec: one step of the background forwarding task spawned
by `CompletionStreamingThread::spawn_poll_stream_for_tokens` (its module is
not among the embedded files) — pull the next token from the source and send
it into the bounded channel, or suspend (no state change) while the channel
is full. -/
def producerStep {τ : Type} (cap : Nat) (s : PipeState τ) : PipeState τ :=
  match s.pending with
  | [] => s
  | t :: rest =>
    if s.chan.length < cap then ⟨rest, s.chan ++ [t], s.delivered⟩ else s

/-- Modelled from the spec: one `next()` call on the receiver handle — take
the oldest buffered token out of the channel. -/
def consumerStep {τ : Type} (s : PipeState τ) : PipeState τ :=
  match s.chan with
  | [] => s
  | t :: rest => ⟨s.pending, rest, s.delivered ++ [t]⟩

/-- Run the pipeline with a polling consumer: alternate one producer step and
one consumer step, `fuel` times. -/
def pipeRun {τ : Type} (cap : Nat) : Nat → PipeState τ → PipeState τ
  | 0, s => s
  | n + 1, s => pipeRun cap n (consumerStep (producerStep cap s))

/-- The capacity of the token channel `Agent::stream_prompt` creates:
`tokio::sync::mpsc::channel(50)`. -/
def streamChannelCapacity : Nat := 50

/-- The wiring of `Agent::stream_prompt`: push the input as a user message,
obtain the source token stream from the model client for the current buffer
snapshot, create the bounded channel, hand its only sender to the single
spawned forwarding task and its only receiver to the returned handle.
Returns the new buffer and the initial pipeline state (source tokens pending,
channel empty, nothing delivered). -/
def Agent.streamPrompt {τ : Type} (streamCompletion : List Message → List τ)
    (buffer : List Message) (input : String) : List Message × PipeState τ :=
  let buf1 := pushStd buffer "user" input
  (buf1, ⟨streamCompletion buf1, [], []⟩)

/-- A message value holding both a role and a content field, so that the
store worker's `expect("No role")` / `expect("No content")` cannot fire. -/
def wellFormed (m : MsgValue) : Bool :=
  m.role?.isSome && m.content?.isSome

/-- The `CreateMessageBody` the store worker builds for a well-formed
message. -/
def bodyOf (tn : String) (m : MsgValue) : CreateMessageBody :=
  ⟨tn, m.role?.getD "", m.content?.getD ""⟩

/-- A persistence layer whose message writes always fail (an unreachable
database, say); used to exercise the failure path of `store_messages`. -/
def failingWriteHandlers : Handlers Unit :=
  ⟨fun s _ => (.ok (), s), fun s _ => (.ok (), s), fun s _ => (.ok [], s),
   fun s _ => (.error (.other "disk full"), s)⟩

end Espiox

namespace Espiox

lemma mkBody_wf (tn : String) (m : MsgValue) (hm : wellFormed m = true) :
    mkBody tn m = Except.ok (bodyOf tn m) := by
  rcases m with ⟨r?, c?⟩
  cases r? <;> cases c? <;> simp_all [wellFormed, mkBody, bodyOf]

lemma findThread_append_of_none (l : List (String × List StoredMsg)) (tn : String)
    (ms : List StoredMsg) (h : findThread l tn = none) :
    findThread (l ++ [(tn, ms)]) tn = some ms := by
  induction l with
  | nil => simp [findThread]
  | cons p rest ih =>
    rcases p with ⟨n, m2⟩
    by_cases hn : n = tn
    · simp [findThread, hn] at h
    · simp only [List.cons_append, findThread, if_neg hn] at h ⊢
      exact ih h

lemma postAll_nil {σ : Type} (H : Handlers σ) (tn : String) (db : σ) :
    postAll H tn db [] = (Except.ok (), db, []) := rfl

lemma postAll_cons {σ : Type} (H : Handlers σ) (tn : String) (db : σ)
    (m : MsgValue) (rest : List MsgValue) :
    postAll H tn db (m :: rest) =
      match mkBody tn m with
      | .error p => (.error p, db, [])
      | .ok body =>
        match H.postMessage db body with
        | (.ok _, db1) =>
          match postAll H tn db1 rest with
          | (r, db2, evs) => (r, db2, .postMessageEv body :: evs)
        | (.error _, db1) =>
          (.error .failedToStoreMessages, db1, [.postMessageEv body]) := rfl

lemma postAll_prefix {σ : Type} (H : Handlers σ) (tn : String) :
    ∀ (msgs : List MsgValue) (db : σ), (∀ m ∈ msgs, wellFormed m = true) →
      ∃ k, k ≤ msgs.length ∧
        (postAll H tn db msgs).2.2
          = (msgs.take k).map (fun m => DbEvent.postMessageEv (bodyOf tn m)) ∧
        ((postAll H tn db msgs).1 = Except.ok () → k = msgs.length) := by
  intro msgs
  induction msgs with
  | nil =>
    intro db _
    exact ⟨0, by simp [postAll_nil]⟩
  | cons m rest ih =>
    intro db h
    have hm : wellFormed m = true := h m (by simp)
    have hrest : ∀ x ∈ rest, wellFormed x = true := fun x hx => h x (by simp [hx])
    rw [postAll_cons, mkBody_wf tn m hm]
    rcases hp : H.postMessage db (bodyOf tn m) with ⟨r1, db1⟩
    cases r1 with
    | error e1 =>
      refine ⟨1, by simp, ?_, ?_⟩
      · simp [hp]
      · intro hok
        simp [hp] at hok
    | ok u =>
      obtain ⟨k, hk, hev, hres⟩ := ih db1 hrest
      refine ⟨k + 1, by simpa using Nat.succ_le_succ hk, ?_, ?_⟩
      · simp [hp]
        simpa using hev
      · intro hok
        simp [hp] at hok
        have := hres hok
        simp [this]

lemma postAll_spec_ok (tn : String) :
    ∀ (msgs : List MsgValue) (db : DbState), (∀ m ∈ msgs, wellFormed m = true) →
      (postAll specHandlers tn db msgs).1 = Except.ok () ∧
      (postAll specHandlers tn db msgs).2.2
        = msgs.map (fun m => DbEvent.postMessageEv (bodyOf tn m)) := by
  intro msgs
  induction msgs with
  | nil => intro db _; exact ⟨rfl, rfl⟩
  | cons m rest ih =>
    intro db h
    have hm : wellFormed m = true := h m (by simp)
    have hrest : ∀ x ∈ rest, wellFormed x = true := fun x hx => h x (by simp [hx])
    rw [postAll_cons, mkBody_wf tn m hm]
    obtain ⟨ih1, ih2⟩ := ih ((specHandlers.postMessage db (bodyOf tn m)).2) hrest
    rcases hq : postAll specHandlers tn ((specHandlers.postMessage db (bodyOf tn m)).2) rest
      with ⟨r2, db2, evs⟩
    rw [hq] at ih1 ih2
    simp only at ih1 ih2
    subst ih1
    constructor
    · simp [specHandlers, specPostMessage] at hq ⊢
      rw [hq]
    · simp [specHandlers, specPostMessage] at hq ⊢
      rw [hq]
      simpa using ih2

lemma pipeRun_drain (τ : Type) (cap : Nat) (hcap : 0 < cap) :
    ∀ (pend d : List τ), pipeRun cap pend.length ⟨pend, [], d⟩ = ⟨[], [], d ++ pend⟩ := by
  intro pend
  induction pend with
  | nil => intro d; simp [pipeRun]
  | cons t rest ih =>
    intro d
    have hstep : pipeRun cap (t :: rest).length ⟨t :: rest, [], d⟩
        = pipeRun cap rest.length (consumerStep (producerStep cap ⟨t :: rest, [], d⟩)) := rfl
    have hp : producerStep cap (⟨t :: rest, [], d⟩ : PipeState τ) = ⟨rest, [t], d⟩ := by
      simp [producerStep, hcap]
    have hc : consumerStep (⟨rest, [t], d⟩ : PipeState τ) = ⟨rest, [], d ++ [t]⟩ := by
      simp [consumerStep]
    rw [hstep, hp, hc, ih (d ++ [t])]
    simp

lemma producer_bounded (τ : Type) (cap : Nat) (p c d : List τ)
    (h : c.length ≤ cap) : (producerStep cap ⟨p, c, d⟩).chan.length ≤ cap := by
  cases p with
  | nil => exact h
  | cons t rest =>
    show (if c.length < cap then (⟨rest, c ++ [t], d⟩ : PipeState τ)
        else ⟨t :: rest, c, d⟩).chan.length ≤ cap
    by_cases hlen : c.length < cap
    · rw [if_pos hlen]
      show (c ++ [t]).length ≤ cap
      simp only [List.length_append, List.length_cons, List.length_nil]
      omega
    · rw [if_neg hlen]
      exact h

lemma consumer_bounded (τ : Type) (cap : Nat) (p c d : List τ)
    (h : c.length ≤ cap) :
    (consumerStep (⟨p, c, d⟩ : PipeState τ)).chan.length ≤ cap := by
  cases c with
  | nil => exact Nat.zero_le cap
  | cons x xs =>
    show xs.length ≤ cap
    simp only [List.length_cons] at h
    omega

lemma chan_bounded (τ : Type) (cap : Nat) (s : PipeState τ)
    (h : s.chan.length ≤ cap) :
    (consumerStep (producerStep cap s)).chan.length ≤ cap := by
  rcases s with ⟨p, c, d⟩
  have h1 : (producerStep cap ⟨p, c, d⟩).chan.length ≤ cap :=
    producer_bounded τ cap p c d h
  rcases hq : producerStep cap (⟨p, c, d⟩ : PipeState τ) with ⟨p2, c2, d2⟩
  rw [hq] at h1
  exact consumer_bounded τ cap p2 c2 d2 h1

/-- Claim C5: on the VolatileCache backend, `save` appends the messages to
the in-memory cache in call order and `load` returns all retained messages in
original order; starting from an empty cache, `save(messages)` followed by
`load()` returns exactly those messages (round-trip). -/
theorem volatile_cache_roundtrip :
    ∀ (σ : Type) (H : Handlers σ) (st : MemState σ) (msgs : List MsgValue),
      (LoadedMemory.Cache.store_messages H st msgs).state.cache = st.cache ++ msgs ∧
      (LoadedMemory.Cache.get_messages H st).1 = Except.ok st.cache ∧
      (∀ db : σ,
        (LoadedMemory.Cache.get_messages H
            (LoadedMemory.Cache.store_messages H ⟨[], db⟩ msgs).state).1
          = Except.ok msgs) := by
  intro σ H st msgs
  refine ⟨rfl, rfl, ?_⟩
  intro db
  simp [LoadedMemory.get_messages, LoadedMemory.store_messages]

/-- Claim C6: when `prompt(input)` returns a result `r`, the conversation
buffer afterwards equals the buffer before the call extended by exactly the
user message `input` followed by the assistant message `r`, and `r` is the
parsed completion produced for the buffer snapshot that already includes the
user message. -/
theorem prompt_appends_user_then_assistant :
    ∀ (ρ : Type) (completion : List Message → Except String ρ)
      (parse : ρ → Except String String) (buffer : List Message)
      (input r : String) (buf2 : List Message),
      (Agent.prompt completion parse buffer input).1 = Except.ok (r, buf2) →
      buf2 = buffer ++ [⟨"user", input⟩, ⟨"assistant", r⟩] ∧
      ∃ v, completion (buffer ++ [⟨"user", input⟩]) = Except.ok v ∧
        parse v = Except.ok r := by
  intro ρ completion parse buffer input r buf2 h
  simp only [Agent.prompt, pushStd] at h
  split at h
  · simp at h
  · rename_i resp heq
    split at h
    · simp at h
    · rename_i s heq2
      simp at h
      obtain ⟨hs, hb⟩ := h
      subst hs
      exact ⟨by simp [← hb], ⟨resp, heq, heq2⟩⟩

/-- Claim C6 witness: a concrete successful `prompt` run. -/
theorem prompt_appends_user_then_assistant_witness :
    ([⟨"user", "q"⟩, ⟨"assistant", "hi"⟩] : List Message)
        = [] ++ [⟨"user", "q"⟩, ⟨"assistant", "hi"⟩] ∧
    ∃ v : String, (Except.ok "hi" : Except String String) = Except.ok v ∧
      (Except.ok v : Except String String) = Except.ok "hi" :=
  prompt_appends_user_then_assistant String (fun _ => Except.ok "hi")
    (fun s => Except.ok s) [] "q" "hi" [⟨"user", "q"⟩, ⟨"assistant", "hi"⟩] rfl

/-- Claim C7: in Forget mode, `load()` returns the empty sequence and
`save(messages)` performs no backend operation — the cache, the durable
state and the event trace are all left untouched by both. -/
theorem forget_mode_no_backend_effect :
    ∀ (σ : Type) (H : Handlers σ) (st : MemState σ) (msgs : List MsgValue),
      Memory.load Memory.Forget H st = (Except.ok [], st, []) ∧
      Memory.save Memory.Forget H st msgs = ⟨none, Except.ok (), st, []⟩ := by
  intro σ H st msgs
  exact ⟨rfl, rfl⟩

/-- Claim C10: `Agent::build` sets the conversation buffer to the settings'
init prompt unconditionally in Forget mode; in every other memory mode it
keeps the buffer loaded from the backend and replaces it with the init
prompt exactly when that loaded buffer is empty. -/
theorem build_buffer_init_prompt_rule :
    ∀ (b p : List Message),
      Agent.buildBuffer Memory.Forget b p = p ∧
      ∀ m : Memory, m ≠ Memory.Forget →
        Agent.buildBuffer m b p = if b.length = 0 then p else b := by
  intro b p
  refine ⟨rfl, ?_⟩
  intro m hm
  cases m with
  | Forget => exact absurd rfl hm
  | Remember lm => rfl

/-- Claim C10 witness: a non-Forget mode with an empty loaded buffer. -/
theorem build_buffer_init_prompt_rule_witness :
    Agent.buildBuffer (Memory.Remember LoadedMemory.Cache) [] [⟨"system", "p"⟩]
      = if ([] : List Message).length = 0 then [⟨"system", "p"⟩] else [] :=
  (build_buffer_init_prompt_rule [] [⟨"system", "p"⟩]).2
    (Memory.Remember LoadedMemory.Cache) (by decide)

/-- Claim C1: a bridged operation that fails surfaces the failure to the
caller and never silently succeeds, and the operation is not retried
internally — `prompt` issues exactly one completion call per invocation,
returns an error value when that call fails and returns a result only when
the call and the response parse both succeeded; the long-term `get_messages`
worker surfaces a failed message fetch to the joining caller as an error. -/
theorem bridged_failure_surfaced_not_retried :
    (∀ (ρ : Type) (completion : List Message → Except String ρ)
        (parse : ρ → Except String String) (buffer : List Message) (input : String),
      (Agent.prompt completion parse buffer input).2 = [pushStd buffer "user" input] ∧
      (∀ e, completion (pushStd buffer "user" input) = Except.error e →
        (Agent.prompt completion parse buffer input).1
          = Except.error PanicMsg.failedToGetCompletion) ∧
      (∀ r buf2, (Agent.prompt completion parse buffer input).1 = Except.ok (r, buf2) →
        ∃ v, completion (pushStd buffer "user" input) = Except.ok v ∧
          parse v = Except.ok r)) ∧
    (∀ (σ : Type) (H : Handlers σ) (db : σ) (tn : String) (db1 db2 : σ) (e : DbError),
      H.getThread db tn = (Except.ok (), db1) →
      H.getMessages db1 tn = (Except.error e, db2) →
      (longTermGetMessages H db tn).1 = Except.error PanicMsg.failedToGetMessages) := by
  constructor
  · intro ρ completion parse buffer input
    refine ⟨?_, ?_, ?_⟩
    · cases hc : completion (pushStd buffer "user" input) with
      | error e => simp [Agent.prompt, hc]
      | ok v =>
        cases hp2 : parse v with
        | error e2 => simp [Agent.prompt, hc, hp2]
        | ok s => simp [Agent.prompt, hc, hp2]
    · intro e he
      simp [Agent.prompt, he]
    · intro r buf2 h
      simp only [Agent.prompt] at h
      split at h
      · simp at h
      · rename_i resp heq
        split at h
        · simp at h
        · rename_i s heq2
          simp at h
          obtain ⟨hs, hb⟩ := h
          subst hs
          exact ⟨resp, heq, heq2⟩
  · intro σ H db tn db1 db2 e h1 h2
    simp [longTermGetMessages, h1, h2]

/-- Claim C1 witness: a failing completion call surfaces as an error. -/
theorem bridged_failure_surfaced_not_retried_witness :
    (Agent.prompt (fun _ : List Message => (Except.error "boom" : Except String String))
        (fun s : String => (Except.ok s : Except String String)) [] "hi").1
      = Except.error PanicMsg.failedToGetCompletion :=
  (bridged_failure_surfaced_not_retried.1 String (fun _ => Except.error "boom")
      (fun s => Except.ok s) [] "hi").2.1 "boom" rfl

/-- Claim C2 counterexample: `store_messages` spawns its write worker without
joining it, so a failing persisted write is not surfaced to the caller of
`save` — here the only write fails and kills the worker, yet the caller
observes no failure at all. -/
theorem store_write_failure_not_surfaced_counterexample :
    (Memory.save (Memory.Remember (LoadedMemory.LongTerm "t")) failingWriteHandlers
        ⟨[], ()⟩ [⟨some "user", some "hi"⟩]).workerResult
      = Except.error PanicMsg.failedToStoreMessages ∧
    (Memory.save (Memory.Remember (LoadedMemory.LongTerm "t")) failingWriteHandlers
        ⟨[], ()⟩ [⟨some "user", some "hi"⟩]).callerPanic = none :=
  ⟨rfl, rfl⟩

/-- Claim C2 amended: a failing persisted write is fatal for the background
write worker — writes are issued in caller order only up to the first
failure, and the trace is complete exactly when the worker succeeds — but
the failure is never surfaced to the caller of `save`, which observes no
panic regardless of the write outcomes. -/
theorem store_write_failure_aborts_worker_silently :
    ∀ (σ : Type) (H : Handlers σ) (st : MemState σ) (tn : String)
      (msgs : List MsgValue),
      (∀ m ∈ msgs, wellFormed m = true) →
      (Memory.save (Memory.Remember (LoadedMemory.LongTerm tn)) H st msgs).callerPanic
        = none ∧
      ∃ k, k ≤ msgs.length ∧
        (Memory.save (Memory.Remember (LoadedMemory.LongTerm tn)) H st msgs).events
          = (msgs.take k).map (fun m => DbEvent.postMessageEv (bodyOf tn m)) ∧
        ((Memory.save (Memory.Remember (LoadedMemory.LongTerm tn)) H st msgs).workerResult
            = Except.ok () → k = msgs.length) := by
  intro σ H st tn msgs h
  obtain ⟨k, hk, hev, hres⟩ := postAll_prefix H tn msgs st.db h
  rcases hq : postAll H tn st.db msgs with ⟨r, db2, evs⟩
  rw [hq] at hev hres
  refine ⟨?_, k, hk, ?_, ?_⟩
  · simp [Memory.save, LoadedMemory.store_messages, hq]
  · simp only [Memory.save, LoadedMemory.store_messages, hq]
    exact hev
  · simp only [Memory.save, LoadedMemory.store_messages, hq]
    intro hok
    exact hres (by simpa using hok)

/-- Claim C2 amended witness: one failing write — the caller sees nothing,
the single issued write is the trace, and the worker did not succeed. -/
theorem store_write_failure_aborts_worker_silently_witness :
    (Memory.save (Memory.Remember (LoadedMemory.LongTerm "t")) failingWriteHandlers
        ⟨[], ()⟩ [⟨some "user", some "hi"⟩]).callerPanic = none ∧
    ∃ k, k ≤ ([⟨some "user", some "hi"⟩] : List MsgValue).length ∧
      (Memory.save (Memory.Remember (LoadedMemory.LongTerm "t")) failingWriteHandlers
          ⟨[], ()⟩ [⟨some "user", some "hi"⟩]).events
        = (([⟨some "user", some "hi"⟩] : List MsgValue).take k).map
            (fun m => DbEvent.postMessageEv (bodyOf "t" m)) ∧
      ((Memory.save (Memory.Remember (LoadedMemory.LongTerm "t")) failingWriteHandlers
          ⟨[], ()⟩ [⟨some "user", some "hi"⟩]).workerResult = Except.ok () →
        k = ([⟨some "user", some "hi"⟩] : List MsgValue).length) :=
  store_write_failure_aborts_worker_silently Unit failingWriteHandlers ⟨[], ()⟩ "t"
    [⟨some "user", some "hi"⟩] (by decide)

/-- Claim C3: saving messages to the LongTerm backend issues exactly one
persisted write per message, sequentially, in the caller's order — the
write-event trace equals the message list mapped to its write bodies, and
with the spec-modelled store (whose writes succeed) the worker completes
cleanly. -/
theorem store_writes_one_per_message_in_order :
    ∀ (st : MemState DbState) (tn : String) (msgs : List MsgValue),
      (∀ m ∈ msgs, wellFormed m = true) →
      (Memory.save (Memory.Remember (LoadedMemory.LongTerm tn)) specHandlers st msgs).events
        = msgs.map (fun m => DbEvent.postMessageEv (bodyOf tn m)) ∧
      (Memory.save (Memory.Remember (LoadedMemory.LongTerm tn)) specHandlers
          st msgs).workerResult = Except.ok () := by
  intro st tn msgs h
  obtain ⟨h1, h2⟩ := postAll_spec_ok tn msgs st.db h
  rcases hq : postAll specHandlers tn st.db msgs with ⟨r, db2, evs⟩
  rw [hq] at h1 h2
  constructor
  · simp only [Memory.save, LoadedMemory.store_messages, hq]
    exact h2
  · simp only [Memory.save, LoadedMemory.store_messages, hq]
    exact h1

/-- Claim C3 witness: a concrete two-message save issues the two writes in
caller order. -/
theorem store_writes_one_per_message_in_order_witness :
    (Memory.save (Memory.Remember (LoadedMemory.LongTerm "t")) specHandlers ⟨[], ⟨[]⟩⟩
        [⟨some "user", some "a"⟩, ⟨some "assistant", some "b"⟩]).events
      = ([⟨some "user", some "a"⟩, ⟨some "assistant", some "b"⟩] : List MsgValue).map
          (fun m => DbEvent.postMessageEv (bodyOf "t" m)) ∧
    (Memory.save (Memory.Remember (LoadedMemory.LongTerm "t")) specHandlers ⟨[], ⟨[]⟩⟩
        [⟨some "user", some "a"⟩, ⟨some "assistant", some "b"⟩]).workerResult
      = Except.ok () :=
  store_writes_one_per_message_in_order ⟨[], ⟨[]⟩⟩ "t"
    [⟨some "user", some "a"⟩, ⟨some "assistant", some "b"⟩] (by decide)

/-- Claim C4: loading from a LongTerm thread name whose thread does not exist
performs exactly one thread creation — the event trace is precisely one
fetch, one create, one message fetch — and returns the empty message list,
not an error; a thread fetch failing with anything other than RowNotFound is
fatal: the worker panics carrying that very error, which the joining caller
observes unchanged. -/
theorem load_missing_thread_creates_once_returns_empty :
    (∀ (st : MemState DbState) (tn : String), findThread st.db.threads tn = none →
      (Memory.load (Memory.Remember (LoadedMemory.LongTerm tn)) specHandlers st).1
        = Except.ok [] ∧
      (Memory.load (Memory.Remember (LoadedMemory.LongTerm tn)) specHandlers st).2.2
        = [DbEvent.getThreadEv tn, DbEvent.postThreadEv tn, DbEvent.getMessagesEv tn]) ∧
    (∀ (σ : Type) (H : Handlers σ) (db : σ) (tn : String) (db1 : σ) (e : DbError),
      H.getThread db tn = (Except.error e, db1) → e ≠ DbError.rowNotFound →
      (longTermGetMessages H db tn).1 = Except.error (PanicMsg.errorGettingThread e)) := by
  constructor
  · intro st tn h
    have h1 : specGetThread st.db tn = (Except.error DbError.rowNotFound, st.db) := by
      simp [specGetThread, h]
    have h2 : findThread (st.db.threads ++ [(tn, [])]) tn = some [] :=
      findThread_append_of_none st.db.threads tn [] h
    constructor <;>
      simp [Memory.load, LoadedMemory.get_messages, longTermGetMessages, specHandlers,
        h1, specPostThread, specGetMessagesDb, h2]
  · intro σ H db tn db1 e h1 hne
    simp [longTermGetMessages, h1, hne]

/-- Claim C4 witness: an empty durable store and a fresh thread name. -/
theorem load_missing_thread_creates_once_returns_empty_witness :
    (Memory.load (Memory.Remember (LoadedMemory.LongTerm "t")) specHandlers
        (⟨[], ⟨[]⟩⟩ : MemState DbState)).1 = Except.ok [] ∧
    (Memory.load (Memory.Remember (LoadedMemory.LongTerm "t")) specHandlers
        (⟨[], ⟨[]⟩⟩ : MemState DbState)).2.2
      = [DbEvent.getThreadEv "t", DbEvent.postThreadEv "t", DbEvent.getMessagesEv "t"] :=
  load_missing_thread_creates_once_returns_empty.1 ⟨[], ⟨[]⟩⟩ "t" rfl

/-- Claim C8 counterexample: `DATA_POOL` lives in `thread_local!` storage and
every bridged durable call runs on a freshly spawned worker thread, so two
bridged operations initialise and use two distinct pool instances — here the
first call gets pool instance 0 and the second pool instance 1. -/
theorem shared_pool_counterexample :
    (bridgedCallPool ⟨[], 0⟩ 0).1
      ≠ (bridgedCallPool (bridgedCallPool ⟨[], 0⟩ 0).2 1).1 := by
  decide

/-- Claim C8 amended: the durable-store connection pool is per worker thread,
not one shared instance — each bridged durable operation accesses
`DATA_POOL` from its own freshly spawned worker thread, initialising a new
pool instance there, so any two bridged calls on fresh (hence distinct)
worker threads use distinct pool instances. -/
theorem pool_per_worker_thread :
    ∀ (r : PoolRegistry) (t1 t2 : Nat),
      lookupTid r.entries t1 = none →
      lookupTid (bridgedCallPool r t1).2.entries t2 = none →
      (bridgedCallPool r t1).1 ≠ (bridgedCallPool (bridgedCallPool r t1).2 t2).1 := by
  intro r t1 t2 h1 h2
  simp only [bridgedCallPool, PoolRegistry.access, h1] at h2 ⊢
  simp only [h2]
  omega

/-- Claim C8 amended witness: two fresh worker threads on a non-empty pool
counter. -/
theorem pool_per_worker_thread_witness :
    (bridgedCallPool ⟨[], 5⟩ 3).1
      ≠ (bridgedCallPool (bridgedCallPool ⟨[], 5⟩ 3).2 7).1 :=
  pool_per_worker_thread ⟨[], 5⟩ 3 7 rfl (by decide)

/-- Claim C9: the streaming token channel `stream_prompt` creates is a
bounded FIFO of fixed capacity exactly 50 — the single forwarding task's
sends are blocked only while the channel is full and the channel never grows
beyond its capacity, and the single consumer handle receives every source
token in production order, with no duplication, loss or reordering. -/
theorem stream_channel_capacity_fifo :
    streamChannelCapacity = 50 ∧
    (∀ (τ : Type) (src : List τ) (buffer : List Message) (input : String),
      pipeRun streamChannelCapacity src.length
          (Agent.streamPrompt (fun _ => src) buffer input).2
        = ⟨[], [], src⟩) ∧
    (∀ (τ : Type) (s : PipeState τ), s.chan.length ≤ streamChannelCapacity →
      (consumerStep (producerStep streamChannelCapacity s)).chan.length
        ≤ streamChannelCapacity) := by
  refine ⟨rfl, ?_, ?_⟩
  · intro τ src buffer input
    have hd := pipeRun_drain τ streamChannelCapacity (by simp [streamChannelCapacity])
      src []
    simpa [Agent.streamPrompt] using hd
  · intro τ s h
    exact chan_bounded τ streamChannelCapacity s h

/-- Claim C9 witness: the boundedness step applied to a concrete pipeline
state. -/
theorem stream_channel_capacity_fifo_witness :
    (consumerStep (producerStep streamChannelCapacity
        (⟨[1], [], []⟩ : PipeState Nat))).chan.length ≤ streamChannelCapacity :=
  stream_channel_capacity_fifo.2.2 Nat ⟨[1], [], []⟩ (by decide)

end Espiox
